import Mathlib

/-
Shallow embedding of the shipment-matching / proportional-allocation core of
the ynab-toolkit repository (src/process_transactions.py, src/utils.py,
src/sync_to_ynab.py), together with theorems settling the frozen claims.

Conventions of the embedding:
* Python `Decimal` / `float` money amounts are modelled as exact rationals (ℚ).
* Python `date` values are modelled as day numbers (ℤ); the subtraction
  `(charge_date - ship_date).days` becomes integer subtraction.
* Python strings are Lean `String`s, but every operation on them is
  implemented over the underlying `List Char` so that the kernel can
  evaluate them (`lower`, `strip`, slicing, `in`, `startswith`).
* Python `round(x, 2)` is round-half-to-even at two decimals (`round2`).
* Python `int(x)` truncation toward zero is `truncInt`.
* Dictionaries keyed by strings are modelled as functions `String → Option _`.
-/

namespace YnabToolkit

/-! ## Python string primitives -/

/-- Python `s.lower()`, applied per character (ASCII-faithful). -/
def pyLower (s : String) : String := ⟨s.data.map Char.toLower⟩

/-- Python `s.strip()`: drop whitespace from both ends. -/
def pyStrip (s : String) : String :=
  ⟨((s.data.dropWhile Char.isWhitespace).reverse.dropWhile Char.isWhitespace).reverse⟩

/-- Python `s[:n]` (slicing by code points). -/
def pyTake (n : Nat) (s : String) : String := ⟨s.data.take n⟩

/-- Whether `pat` is a leading segment of `l` (helper for substring search). -/
def leadSeg : List Char → List Char → Bool
  | [], _ => true
  | _ :: _, [] => false
  | a :: as, b :: bs => a = b && leadSeg as bs

/-- Helper for Python `pat in s` on the underlying character lists. -/
def subListOf (pat : List Char) : List Char → Bool
  | [] => leadSeg pat []
  | c :: rest => leadSeg pat (c :: rest) || subListOf pat rest

/-- Python substring test `pat in s`. -/
def containsSub (pat s : String) : Bool := subListOf pat.data s.data

/-- Python `s.startswith(pat)`. -/
def startsWithPy (pat s : String) : Bool := leadSeg pat.data s.data

/-- Lexicographic code-point comparison, Python `a < b` on strings. -/
def charListLt : List Char → List Char → Bool
  | [], [] => false
  | [], _ :: _ => true
  | _ :: _, [] => false
  | a :: as, b :: bs =>
    if a.val < b.val then true else if b.val < a.val then false else charListLt as bs

/-- Python string comparison `a < b`. -/
def pyStrLt (a b : String) : Bool := charListLt a.data b.data

/-- Split a character list at maximal runs of non-`p` characters, keeping the
empty edge tokens that Python re.split produces. -/
def splitRuns (p : Char → Bool) : List Char → List (List Char)
  | [] => [[]]
  | c :: rest =>
    if p c then
      match splitRuns p rest with
      | [] => [[c]]
      | t :: ts => (c :: t) :: ts
    else
      match rest with
      | [] => [[], []]
      | c' :: _ => if p c' then [] :: splitRuns p rest else splitRuns p rest

/-- Word characters of the Python regex class w (ASCII-faithful). -/
def wordChar (c : Char) : Bool := c.isAlphanum || c = '_'

/-- Python `re.split(r"\W+", s)` as a list of strings. -/
def splitNonWord (s : String) : List String :=
  (splitRuns wordChar s.data).map (fun l => (⟨l⟩ : String))

/-- Python `s.split()` (whitespace split, no empty tokens). -/
def splitWs (s : String) : List String :=
  ((splitRuns (fun c => !c.isWhitespace) s.data).map (fun l => (⟨l⟩ : String))).filter
    (fun t => t ≠ ("" : String))

/-! ## Numeric primitives -/

/-- Python `int(x)`: truncation of a rational toward zero. -/
def truncInt (q : ℚ) : ℤ := Int.tdiv q.num q.den

/-- Python `round(x)` at integer precision: round half to even. -/
def roundHalfEven (q : ℚ) : ℤ :=
  if q - ⌊q⌋ < 1/2 then ⌊q⌋
  else if (1:ℚ)/2 < q - ⌊q⌋ then ⌊q⌋ + 1
  else if 2 ∣ ⌊q⌋ then ⌊q⌋ else ⌊q⌋ + 1

/-- Python `round(x, 2)`: round to two decimal places, half to even. -/
def round2 (q : ℚ) : ℚ := (roundHalfEven (100 * q) : ℚ) / 100

theorem roundHalfEven_sub_le (q : ℚ) : |((roundHalfEven q : ℚ)) - q| ≤ 1/2 := by
  have hfl : (⌊q⌋ : ℚ) ≤ q := Int.floor_le q
  have hfu : q < (⌊q⌋ : ℚ) + 1 := Int.lt_floor_add_one q
  unfold roundHalfEven
  split
  · rename_i h
    rw [abs_le]
    constructor <;> push_cast <;> linarith
  · rename_i h
    push_neg at h
    split
    · rename_i h2
      rw [abs_le]
      constructor <;> push_cast <;> linarith
    · rename_i h2
      push_neg at h2
      have heq : q - (⌊q⌋ : ℚ) = 1/2 := le_antisymm h2 h
      split
      · rw [abs_le]; constructor <;> push_cast <;> linarith
      · rw [abs_le]; constructor <;> push_cast <;> linarith

theorem round2_sub_le (q : ℚ) : |round2 q - q| ≤ 1/200 := by
  have h := roundHalfEven_sub_le (100 * q)
  unfold round2
  have : (roundHalfEven (100 * q) : ℚ) / 100 - q
      = ((roundHalfEven (100 * q) : ℚ) - 100 * q) / 100 := by ring
  rw [this, abs_div]
  rw [show |(100:ℚ)| = 100 by norm_num]
  linarith [div_le_div_of_nonneg_right (c := (100:ℚ)) h (by norm_num)]

theorem roundHalfEven_nonneg (q : ℚ) (hq : 0 ≤ q) : 0 ≤ roundHalfEven q := by
  have h0 : (0:ℤ) ≤ ⌊q⌋ := Int.floor_nonneg.mpr hq
  unfold roundHalfEven
  split
  · exact h0
  · split
    · omega
    · split
      · exact h0
      · omega

theorem round2_nonneg (q : ℚ) (hq : 0 ≤ q) : 0 ≤ round2 q := by
  unfold round2
  have := roundHalfEven_nonneg q hq
  have h100 : (0:ℚ) ≤ 100 * q := by linarith
  have := roundHalfEven_nonneg (100 * q) h100
  positivity

/-! ## Data model (src/process_transactions.py, load_order_history) -/

/-- Shipping options that mark grocery (Amazon Fresh / Whole Foods) items
(`GROCERY_SHIPPING_OPTIONS` in src/process_transactions.py). -/
def GROCERY_SHIPPING_OPTIONS : List String := ["scheduled-houdini", "scheduled-one-houdini"]

/-- One row of the Amazon order-history CSV after field parsing
(`all_items` entries in `load_order_history`). -/
structure RawItem where
  orderId : String
  name : String
  total : ℚ
  shipDate : Option ℤ
  quantity : Nat
  shippingOption : String
deriving Repr, DecidableEq

/-- Item projection stored inside a shipment
(the `items` entries built in `load_order_history`). -/
structure SItem where
  name : String
  total : ℚ
  qty : Nat
deriving Repr, DecidableEq

/-- A shipment: the group of items of one order sharing a ship date. -/
structure Shipment where
  shipDate : Option ℤ
  total : ℚ
  items : List SItem
  isGrocery : Bool
deriving Repr, DecidableEq

/-- Order-level item projection (the `items` list of an order record). -/
structure OItem where
  name : String
  total : ℚ
deriving Repr, DecidableEq

/-- The per-order record produced by `load_order_history`. -/
structure OrderData where
  shipments : List Shipment
  items : List OItem
  isGrocery : Bool
deriving Repr, DecidableEq

/-- Build one shipment from the group of rows sharing a ship date
(`load_order_history`): total is the sum of item totals, and the shipment is
grocery iff every item in the group has a grocery shipping option. -/
def mkShipment (group : List RawItem) : Shipment :=
  { shipDate := (group.headD ⟨"", "", 0, none, 1, ""⟩).shipDate
    total := (group.map RawItem.total).sum
    items := group.map (fun it => { name := it.name, total := it.total, qty := it.quantity })
    isGrocery := group.all (fun it => it.shippingOption ∈ GROCERY_SHIPPING_OPTIONS) }

/-- Sort key comparison of `shipments.sort(key=lambda s: s["ship_date"] or
datetime.max.date())`: unknown ship dates act as the maximal date. -/
def shipKeyLE (a b : Shipment) : Bool :=
  match a.shipDate, b.shipDate with
  | none, none => true
  | none, some _ => false
  | some _, none => true
  | some x, some y => x ≤ y

/-- The shipment sort of `load_order_history` (Python `list.sort` is stable). -/
def sortShipments (l : List Shipment) : List Shipment := l.mergeSort shipKeyLE

/-- Order-level grocery flag: `all(s["is_grocery"] for s in shipments) if
shipments else False`. -/
def orderIsGrocery (shipments : List Shipment) : Bool :=
  match shipments with
  | [] => false
  | _ => shipments.all Shipment.isGrocery

/-! ## Bank charge model (main loop of src/process_transactions.py) -/

/-- A bank charge row after amount/date/order-id parsing in `main`:
`amount` is signed (negative = purchase, positive = refund), `isRefund`
records whether the amount came from the Inflow column. -/
structure Charge where
  date : Option ℤ
  amount : ℚ
  isRefund : Bool
  payee : String
  orderId : String
deriving Repr, DecidableEq

/-- `is_grocery_transaction` from src/utils.py. -/
def isGroceryTransaction (payee : String) : Bool :=
  (["amazon fresh", "whole foods", "amazon groce"] : List String).any
    (fun g => containsSub g (pyLower payee))

/-- The bank-level tip signal: `"amazon tips" in payee.lower()`. -/
def tipSignal (payee : String) : Bool := containsSub ("amazon tips") (pyLower payee)

/-! ## ShipmentMatcher (Strategies 1-4 in `main`) -/

/-- Generic first-strict-improvement loop: the accumulator `best`/`bd`
pattern shared by Strategy 1 (date proximity) and Strategy 4 (best fit).
An element replaces the current best exactly when it is admissible and its
value is strictly below the best value so far. -/
def bestGo {α β : Type} [LinearOrder β] (elig : α → Bool) (dv : α → β) :
    List α → Option α → β → Option α
  | [], best, _ => best
  | x :: rest, best, bd =>
    if elig x = true ∧ dv x < bd then bestGo elig dv rest (some x) (dv x)
    else bestGo elig dv rest best bd

/-- Day difference `(charge_date - shipment.ship_date).days`; only meaningful
when the ship date is known. -/
def diffDays (d : ℤ) (s : Shipment) : ℤ := d - s.shipDate.getD 0

/-- Eligibility test of Strategy 1: known ship date with
`0 <= days_diff <= 7`. -/
def eligibleB (d : ℤ) (s : Shipment) : Bool :=
  match s.shipDate with
  | none => false
  | some sd => decide (0 ≤ d - sd) && decide (d - sd ≤ 7)

/-- Strategy 1 (date proximity): `best_days_diff` starts at 999 and a
shipment wins when `0 <= days_diff <= 7 and days_diff < best_days_diff`. -/
def strategy1 (d : ℤ) (shipments : List Shipment) : Option Shipment :=
  bestGo (eligibleB d) (diffDays d) shipments none 999

/-- Strategy 2 (amount match): first shipment with
`abs(shipment.total - abs(amount)) < 1.00`. -/
def strategy2 (amt : ℚ) (shipments : List Shipment) : Option Shipment :=
  shipments.find? (fun s => |s.total - amt| < 1)

/-- Strategy 3 (single item): first order item with
`abs(item.total - abs(amount)) < 1.00`. -/
def strategy3 (amt : ℚ) (items : List OItem) : Option OItem :=
  items.find? (fun it => |it.total - amt| < 1)

/-- Strategy 4 (best fit): `best_diff` starts at 999999 and a shipment wins
when `abs(shipment.total - abs(amount)) < best_diff`. -/
def strategy4 (amt : ℚ) (shipments : List Shipment) : Option Shipment :=
  bestGo (fun _ => true) (fun s => |s.total - amt|) shipments none 999999

/-! ## ProportionalAllocator -/

/-- One entry of `matched_items_with_amounts`. -/
structure AllocItem where
  name : String
  baseName : String
  amount : ℚ
  originalTotal : ℚ
  qty : Nat
deriving Repr, DecidableEq

/-- Per-item allocation record: display name gets a quantity prefix when
`qty > 1`, the allocated amount is `round(item_total * ratio, 2)`. -/
def allocItem (ratio : ℚ) (it : SItem) : AllocItem :=
  { name := if 1 < it.qty then (toString it.qty) ++ (" x ") ++ it.name else it.name
    baseName := it.name
    amount := round2 (it.total * ratio)
    originalTotal := it.total
    qty := it.qty }

/-- Proportional allocation of a charge over a matched shipment
(`if shipment_total > 0` block of `main`): with a positive shipment total,
every item (the last one included) is rounded independently; with a
non-positive total no `matched_items_with_amounts` are produced. -/
def allocate (amount : ℚ) (s : Shipment) : Option (List AllocItem) :=
  if 0 < s.total then some (s.items.map (allocItem (|amount| / s.total))) else none

/-- The strategy cascade of `main` combined with allocation: returns the
matched shipment (when any) and the `matched_items_with_amounts`. -/
def matchAndAllocate (c : Charge) (shipments : List Shipment) (allItems : List OItem) :
    Option Shipment × Option (List AllocItem) :=
  let m1 : Option Shipment :=
    match c.date with
    | some d => strategy1 d shipments
    | none => none
  match m1 with
  | some s => (some s, allocate c.amount s)
  | none =>
    match strategy2 (|c.amount|) shipments with
    | some s => (some s, allocate c.amount s)
    | none =>
      match strategy3 (|c.amount|) allItems with
      | some it => (none, some [{ name := it.name, baseName := it.name, amount := c.amount,
                                  originalTotal := it.total, qty := 1 }])
      | none =>
        match strategy4 (|c.amount|) shipments with
        | some s => (some s, allocate c.amount s)
        | none => (none, none)

/-! ## TransactionBuilder (special cases and per-item splits in `main`) -/

/-- One category split of the output transaction. -/
structure Split where
  category : String
  amount : ℚ
  memo : String
  items : List String
deriving Repr, DecidableEq

/-- Sign normalisation used for every split amount: refunds positive,
purchases negative (`abs_amount` logic of `main`). -/
def signedAmount (isRefund : Bool) (amt : ℚ) : ℚ :=
  if isRefund then |amt| else -|amt|

/-- Per-item split creation (the `items_with_amounts` loop of `main`):
one split per allocated item, category looked up by base name with fallback
"Household Supplies", memo truncated to 50 characters. -/
def buildItemSplits (isRefund : Bool) (lookupCat : String → Option String)
    (items : List AllocItem) : List Split :=
  items.map (fun it =>
    { category := (lookupCat it.baseName).getD ("Household Supplies")
      amount := signedAmount isRefund it.amount
      memo := pyTake 50 it.name
      items := [it.name] })

/-- Tag describing which branch of the `main` loop produced a transaction. -/
inductive Tag where
  | cachedDup
  | notFound
  | tip
  | noMatch
  | grocery
  | itemized
deriving Repr, DecidableEq

/-- The transaction record emitted for one bank charge. -/
structure TxnOut where
  tag : Tag
  flag : String
  memo : String
  splits : List Split
deriving Repr, DecidableEq

/-- `matched_shipment.get("is_grocery", False) if matched_shipment else False`. -/
def matchedShipGrocery : Option Shipment → Bool
  | some s => s.isGrocery
  | none => false

/-- Output of the order-not-found branch (`flag = "blue"`,
`"... - NEEDS ITEMIZATION"`). -/
def notFoundTxn (c : Charge) : TxnOut :=
  { tag := Tag.notFound, flag := "blue"
    memo := ("Order ") ++ c.orderId ++ (" - NEEDS ITEMIZATION"), splits := [] }

/-- Output of the no-shipment-match branch (`flag = "blue"`,
`"... - NO SHIPMENT MATCH"`). -/
def noMatchTxn (c : Charge) : TxnOut :=
  { tag := Tag.noMatch, flag := "blue"
    memo := ("Order ") ++ c.orderId ++ (" - NO SHIPMENT MATCH"), splits := [] }

/-- The per-charge branch structure of the `main` loop, composed with the
pass-2 per-item split creation: order lookup, then tip detection, then
shipment matching and allocation, then the grocery special case, then
itemized splits. `lookupCat` stands for the item → category mapping that
pass 2 derives from the categorizer results. -/
def processCharge (c : Charge) (orderLookup : Option OrderData)
    (lookupCat : String → Option String) : TxnOut :=
  match orderLookup with
  | none => notFoundTxn c
  | some od =>
    if tipSignal c.payee then
      { tag := Tag.tip, flag := "yellow", memo := "Delivery Tip"
        splits := [{ category := "Delivery Fee", amount := signedAmount c.isRefund c.amount
                     memo := "Delivery Tip", items := [] }] }
    else
      match matchAndAllocate c od.shipments od.items with
      | (_, none) => noMatchTxn c
      | (_, some []) => noMatchTxn c
      | (ms, some items) =>
        if matchedShipGrocery ms || od.isGrocery || isGroceryTransaction c.payee then
          { tag := Tag.grocery, flag := "yellow", memo := ("Order ") ++ c.orderId
            splits := [{ category := "Groceries", amount := signedAmount c.isRefund c.amount
                         memo := "Groceries", items := items.map AllocItem.name }] }
        else
          { tag := Tag.itemized, flag := "yellow", memo := ("Order ") ++ c.orderId
            splits := buildItemSplits c.isRefund lookupCat items }

/-! ## Idempotency key and pass-1 dedup -/

/-- `amount_cents = int(abs(amount) * 100)`. -/
def amountCents (amount : ℚ) : ℤ := truncInt (|amount| * 100)

/-- `import_id = f"AMZ2:{order_id}:{amount_cents}:{direction}"` with
direction "R" for refunds and "P" for purchases. -/
def mkImportId (orderId : String) (cents : ℤ) (isRefund : Bool) : String :=
  ("AMZ2:") ++ orderId ++ (":") ++ toString cents ++ (":") ++
    (if isRefund then ("R") else ("P"))

/-- The import id the `main` loop derives for a charge. -/
def chargeImportId (c : Charge) : String :=
  mkImportId c.orderId (amountCents c.amount) c.isRefund

/-- Pass 1 with the local dedup check: a charge whose import id is already in
`existing_ids` is counted as cached and appends no transaction (`none`). -/
def processRow (existingIds : List String) (c : Charge) (orderLookup : Option OrderData)
    (lookupCat : String → Option String) : Option TxnOut :=
  if chargeImportId c ∈ existingIds then none
  else some (processCharge c orderLookup lookupCat)

/-! ## SyncEngine (src/sync_to_ynab.py, sync_transactions) -/

/-- A pending split as stored in the local cache file. -/
structure SyncSplit where
  category : String
  amount : ℚ
  memo : String
deriving Repr, DecidableEq

/-- A pending transaction handed to the sync engine. -/
structure SyncTxn where
  importId : String
  date : String
  amount : ℚ
  splits : List SyncSplit
deriving Repr, DecidableEq

/-- A YNAB subtransaction (amount in milliunits). -/
structure SubTxn where
  amount : ℤ
  categoryId : Option String
  memo : String
deriving Repr, DecidableEq

/-- An existing remote transaction as returned by
`get_existing_transactions`. -/
structure RemoteTxn where
  transactionId : String
  subtransactions : List SubTxn
deriving Repr, DecidableEq

/-- Milliunits conversion `int(Decimal(str(x)) * 1000)`. -/
def milliunits (q : ℚ) : ℤ := truncInt (q * 1000)

/-- Add `d` to the amount of the last subtransaction
(`subtransactions[-1]["amount"] += rounding_diff`). -/
def adjustLast : List SubTxn → ℤ → List SubTxn
  | [], _ => []
  | [x], d => [{ x with amount := x.amount + d }]
  | x :: y :: rest, d => x :: adjustLast (y :: rest) d

/-- `build_subtransactions`: `None` when the transaction has no splits;
otherwise one subtransaction per split with the rounding difference against
the parent amount added to the last subtransaction. -/
def buildSubtransactions (catMapping : String → Option String) (t : SyncTxn) :
    Option (List SubTxn) :=
  match t.splits with
  | [] => none
  | _ =>
    let subs := t.splits.map (fun s =>
      { amount := milliunits s.amount, categoryId := catMapping s.category
        memo := pyTake 200 s.memo })
    let diff := milliunits t.amount - (subs.map SubTxn.amount).sum
    some (if diff = 0 then subs else adjustLast subs diff)

/-- `subtransactions_differ`: empty-vs-empty is unchanged, empty-vs-nonempty
differs, length mismatch differs, otherwise the pairwise 50-character memo
comparison decides. -/
def subtransactionsDiffer (l r : List SubTxn) : Bool :=
  match l, r with
  | [], [] => false
  | [], _ :: _ => true
  | _ :: _, [] => true
  | x :: xs, y :: ys =>
    if (x :: xs).length ≠ (y :: ys).length then true
    else ((x :: xs).zip (y :: ys)).any (fun p => pyTake 50 p.1.memo ≠ pyTake 50 p.2.memo)

/-- Outcome recorded for one pending transaction by `sync_transactions`. -/
inductive SyncOutcome where
  | missingId
  | skipped
  | duplicate
  | queuedUpdate
  | queuedCreate
deriving Repr, DecidableEq

/-- The per-transaction decision of the first pass of `sync_transactions`:
missing import id, the five-year cutoff, the local `synced` set, the check
against existing remote transactions (update when subtransactions differ,
duplicate/skip otherwise), and creation for unseen ids. -/
def classifyTxn (synced : List String) (existing : String → Option RemoteTxn)
    (catMapping : String → Option String) (cutoff : String) (t : SyncTxn) : SyncOutcome :=
  if t.importId = "" then SyncOutcome.missingId
  else if pyStrLt t.date cutoff then SyncOutcome.skipped
  else if t.importId ∈ synced ∧ existing t.importId = none then SyncOutcome.skipped
  else
    match existing t.importId with
    | some ex =>
      let differs : Bool :=
        match buildSubtransactions catMapping t with
        | none => false
        | some [] => false
        | some subs => subtransactionsDiffer subs ex.subtransactions
      if differs then SyncOutcome.queuedUpdate
      else if t.importId ∈ synced then SyncOutcome.skipped
      else SyncOutcome.duplicate
    | none => SyncOutcome.queuedCreate

/-! ## CategoryCache (src/utils.py) -/

/-- `_normalize_item_name`: `name.strip().lower()[:60]`. -/
def normalizeItemName (name : String) : String := pyTake 60 (pyLower (pyStrip name))

/-- `cache_category`: store under the normalized key when both the key and
the category are non-empty (Python truthiness). The module-level dict is
modelled as a function `String → Option String`. -/
def cacheCategory (cache : String → Option String) (name category : String) :
    String → Option String :=
  let key := normalizeItemName name
  if key ≠ "" ∧ category ≠ "" then
    fun k => if k = key then some category else cache k
  else cache

/-- `get_cached_category`: look up under the normalized key. -/
def getCachedCategory (cache : String → Option String) (name : String) : Option String :=
  cache (normalizeItemName name)

/-- The cache pre-pass of `batch_categorize_items`: split the item names of
one transaction into cached (name, category) results and the uncached names
that will be sent to the classifier. -/
def partitionCached (cache : String → Option String) :
    List String → List (String × String) × List String
  | [] => ([], [])
  | it :: rest =>
    let p := partitionCached cache rest
    match getCachedCategory cache it with
    | some c => ((it, c) :: p.1, p.2)
    | none => (p.1, it :: p.2)

/-! ## Categorizer response handling (match_category and the retry ladder) -/

/-- Characters matched by the leading-emoji regex
`^[\U0001F300-\U0001F9FF\U00002600-\U000027BF]+\s*`. -/
def isEmojiChar (c : Char) : Bool :=
  (0x1F300 ≤ c.toNat && c.toNat ≤ 0x1F9FF) || (0x2600 ≤ c.toNat && c.toNat ≤ 0x27BF)

/-- `strip_leading_emoji`: when the string starts with an emoji, drop the
leading emoji run and any following whitespace; otherwise unchanged. -/
def stripLeadingEmoji (s : String) : String :=
  match s.data with
  | [] => s
  | c :: _ =>
    if isEmojiChar c then ⟨(s.data.dropWhile isEmojiChar).dropWhile Char.isWhitespace⟩
    else s

/-- Second loop of `match_category`: first case-insensitive equal category. -/
def findCaseInsensitive (cat : String) (cats : List String) : Option String :=
  cats.find? (fun y => decide (pyLower y = pyLower cat))

/-- Third loop of `match_category`: first category whose emoji-stripped
lowercase form equals the input (raw or itself emoji-stripped). -/
def findEmojiStripped (cat : String) (cats : List String) : Option String :=
  cats.find? (fun y =>
    decide (pyLower (stripLeadingEmoji y) = pyLower cat) ||
    decide (pyLower (stripLeadingEmoji y) = pyLower (stripLeadingEmoji cat)))

/-- Fuzzy test of the fourth loop of `match_category`: first words equal and
at least half of the distinct input words occur in the candidate
(`overlap >= len(cat_words) / 2`). -/
def fuzzyWordTest (cat y : String) : Bool :=
  let ys := pyLower (stripLeadingEmoji y)
  let catWords := (splitNonWord (pyLower cat)).dedup
  let catFirst := (splitWs (pyLower cat)).headD ("")
  decide (catFirst ≠ "") && decide (catFirst = (splitWs ys).headD ("")) &&
    decide (catWords.length ≤ 2 * (catWords.filter (fun w => w ∈ splitNonWord ys)).length)

/-- Fourth loop of `match_category`. -/
def findFuzzy (cat : String) (cats : List String) : Option String :=
  cats.find? (fuzzyWordTest cat)

/-- `match_category` from src/process_transactions.py: exact membership,
then case-insensitive, then emoji-stripped, then the first-word/word-overlap
fuzzy match; on failure the input comes back with `was_matched = False`. -/
def matchCategory (cat : String) (cats : List String) : String × Bool :=
  if cat ∈ cats then (cat, true)
  else
    match findCaseInsensitive cat cats with
    | some y => (y, true)
    | none =>
      match findEmojiStripped cat cats with
      | some y => (y, true)
      | none =>
        match findFuzzy cat cats with
        | some y => (y, true)
        | none => (cat, false)

/-- The first segment of `s` before the first occurrence of `pat`
(Python `s.split(pat)[0]`). -/
def takeBeforeSub (pat : List Char) : List Char → List Char
  | [] => []
  | c :: rest => if leadSeg pat (c :: rest) then [] else c :: takeBeforeSub pat rest

/-- One explanation-marker strip step:
`if marker in cat.lower(): cat = cat.split(marker)[0].strip()`. -/
def stripMarker (m : String) (s : String) : String :=
  if containsSub m (pyLower s) then pyStrip ⟨takeBeforeSub m.data s.data⟩ else s

/-- Category-text cleanup of the response parser: strip a trailing
parenthetical, then the " - ", " since ", " because " explanation markers. -/
def cleanCat (cat : String) : String :=
  let c1 := if containsSub ("(") cat then pyStrip ⟨takeBeforeSub ("(").data cat.data⟩ else cat
  stripMarker (" because ") (stripMarker (" since ") (stripMarker (" - ") c1))

/-- The `looks_like_product` heuristic of the response parsers. -/
def looksLikeProduct (c : String) : Bool :=
  decide (40 < c.data.length) || containsSub (",") c ||
    containsSub ("ounce") (pyLower c) || containsSub ("oz") (pyLower c) ||
    containsSub ("pack") (pyLower c) || containsSub ("count") (pyLower c) ||
    startsWithPy ("organic ") (pyLower c) || containsSub ("365 ") c ||
    containsSub ("by whole foods") (pyLower c)

/-- The `SUSPICIOUS_RULES` table. -/
def SUSPICIOUS_RULES : List (String × List String) :=
  [("Meats", ["banana", "tofu", "avocado"]),
   ("Bananas", ["chicken", "beef", "bacon"]),
   ("Frozen", ["broccoli", "spinach", "peas", "mango", "blueberries"]),
   ("🎒 Gear", ["diaper", "wipes"]),
   ("Household Supplies", ["diaper", "wipes"])]

/-- `is_suspicious_categorization`. -/
def isSuspicious (item category : String) : Bool :=
  ([category, stripLeadingEmoji category] : List String).any (fun key =>
    (SUSPICIOUS_RULES.filter (fun r => r.1 = key)).any (fun r =>
      r.2.any (fun kw => containsSub kw (pyLower item))))

/-- Final category of one response line in the synchronous path of
`batch_categorize_items`: clean the text, reject product-looking text, fuzzy
match, retry on failure (the `retry` oracle stands for
`retry_categorize_item`, the `resubmit` oracle for
`resubmit_suspicious_item`); when the retry also fails the cleaned raw text
itself is kept as the category. -/
def categorizeLineSync (cats : List String) (rawCat itemName : String)
    (retry : Option String) (resubmit : String → String) : String :=
  let c := cleanCat rawCat
  let m := if looksLikeProduct c then (c, false) else matchCategory c cats
  let cat2 := if m.2 then m.1 else (match retry with | some r => r | none => m.1)
  if isSuspicious itemName cat2 then resubmit cat2 else cat2

/-- The configured fallback category of `retrieve_batch_results`. -/
def fallbackCat (cats : List String) : String :=
  if ("🍌Groceries") ∈ cats then ("🍌Groceries") else ("Groceries")

/-- Final category of one response line in the batch-results path
(`retrieve_batch_results`): same cleanup and matching, but a doubly-failed item
is assigned the fallback category instead of the raw text. -/
def categorizeLineBatch (cats : List String) (rawCat : String)
    (retry : Option String) : String :=
  let c := cleanCat rawCat
  let m := if looksLikeProduct c then (c, false) else matchCategory c cats
  if m.2 then m.1
  else
    match retry with
    | some r => r
    | none => fallbackCat cats

/-! ## General lemmas about the loop shapes used above -/

theorem find?_first {α : Type} (p : α → Bool) (l : List α) (a : α)
    (h : l.find? p = some a) :
    a ∈ l ∧ p a = true ∧ ∃ l₁ l₂, l = l₁ ++ a :: l₂ ∧ ∀ x ∈ l₁, p x = false := by
  induction l with
  | nil => simp [List.find?] at h
  | cons x rest ih =>
    rw [List.find?_cons] at h
    by_cases hx : p x
    · rw [hx] at h
      obtain rfl : x = a := by injection h
      exact ⟨List.mem_cons_self _ _, hx, [], rest, rfl, by simp⟩
    · rw [Bool.not_eq_true] at hx
      rw [hx] at h
      rw [← Bool.not_eq_true] at hx
      obtain ⟨hmem, hpa, l₁, l₂, hdec, hfirst⟩ := ih h
      refine ⟨List.mem_cons_of_mem _ hmem, hpa, x :: l₁, l₂, by rw [hdec]; rfl, ?_⟩
      intro z hz
      rcases List.mem_cons.mp hz with rfl | hz'
      · exact Bool.eq_false_iff.mpr hx
      · exact hfirst z hz'

theorem bestGo_spec {α β : Type} [LinearOrder β] (elig : α → Bool) (dv : α → β)
    (l : List α) :
    ∀ (best : Option α) (bd : β),
      (∀ b, best = some b → elig b = true ∧ dv b = bd) →
      (bestGo elig dv l best bd = best ∧ ∀ s ∈ l, elig s = true → bd ≤ dv s) ∨
      (∃ s, bestGo elig dv l best bd = some s ∧ s ∈ l ∧ elig s = true ∧ dv s < bd ∧
        (∀ s' ∈ l, elig s' = true → dv s ≤ dv s') ∧
        ∃ l₁ l₂, l = l₁ ++ s :: l₂ ∧ ∀ s' ∈ l₁, elig s' = true → dv s < dv s') := by
  induction l with
  | nil => intro best bd _; left; exact ⟨rfl, by simp⟩
  | cons x rest ih =>
    intro best bd hbest
    by_cases hcond : elig x = true ∧ dv x < bd
    · rw [show bestGo elig dv (x :: rest) best bd
          = bestGo elig dv rest (some x) (dv x) by rw [bestGo, if_pos hcond]]
      have haux : ∀ b, (some x : Option α) = some b → elig b = true ∧ dv b = dv x := by
        rintro b hb
        injection hb with hb
        subst hb
        exact ⟨hcond.1, rfl⟩
      rcases ih (some x) (dv x) haux with ⟨heq, hmin⟩ |
        ⟨t, hteq, htmem, htelig, htlt, htmin, l₁, l₂, hdec, hstrict⟩
      · right
        refine ⟨x, heq, List.mem_cons_self _ _, hcond.1, hcond.2, ?_, [], rest, rfl, by simp⟩
        intro s' hs' he'
        rcases List.mem_cons.mp hs' with rfl | hs''
        · exact le_refl _
        · exact hmin s' hs'' he'
      · right
        refine ⟨t, hteq, List.mem_cons_of_mem _ htmem, htelig, lt_trans htlt hcond.2, ?_,
          x :: l₁, l₂, by rw [hdec]; rfl, ?_⟩
        · intro s' hs' he'
          rcases List.mem_cons.mp hs' with rfl | hs''
          · exact le_of_lt htlt
          · exact htmin s' hs'' he'
        · intro s' hs' he'
          rcases List.mem_cons.mp hs' with rfl | hs''
          · exact htlt
          · exact hstrict s' hs'' he'
    · rw [show bestGo elig dv (x :: rest) best bd
          = bestGo elig dv rest best bd by rw [bestGo, if_neg hcond]]
      have hxge : elig x = true → bd ≤ dv x := by
        intro he
        by_contra hlt
        exact hcond ⟨he, lt_of_not_le hlt⟩
      rcases ih best bd hbest with ⟨heq, hmin⟩ | ⟨t, hteq, htmem, htelig, htlt, htmin, l₁, l₂, hdec, hstrict⟩
      · left
        refine ⟨heq, ?_⟩
        intro s' hs' he'
        rcases List.mem_cons.mp hs' with rfl | hs''
        · exact hxge he'
        · exact hmin s' hs'' he'
      · right
        refine ⟨t, hteq, List.mem_cons_of_mem _ htmem, htelig, htlt, ?_,
          x :: l₁, l₂, by rw [hdec]; rfl, ?_⟩
        · intro s' hs' he'
          rcases List.mem_cons.mp hs' with rfl | hs''
          · exact le_of_lt (lt_of_lt_of_le htlt (hxge he'))
          · exact htmin s' hs'' he'
        · intro s' hs' he'
          rcases List.mem_cons.mp hs' with rfl | hs''
          · exact lt_of_lt_of_le htlt (hxge he')
          · exact hstrict s' hs'' he'

theorem zip_self_diag {α : Type} :
    ∀ (l : List α) (p : α × α), p ∈ l.zip l → p.1 = p.2
  | [], p, hp => by simp [List.zip] at hp
  | x :: rest, p, hp => by
    rcases List.mem_cons.mp hp with rfl | hp'
    · rfl
    · exact zip_self_diag rest p hp'

theorem subtransactionsDiffer_self (l : List SubTxn) : subtransactionsDiffer l l = false := by
  cases l with
  | nil => rfl
  | cons x rest =>
    show (if (x :: rest).length ≠ (x :: rest).length then true
      else ((x :: rest).zip (x :: rest)).any
        (fun p => pyTake 50 p.1.memo ≠ pyTake 50 p.2.memo)) = false
    rw [if_neg (by simp)]
    rw [List.any_eq_false]
    intro p hp
    rw [zip_self_diag (x :: rest) p hp]
    simp

theorem sum_abs_map_sub_le {α : Type} (f g : α → ℚ) (ε : ℚ) :
    ∀ l : List α, (∀ x ∈ l, |f x - g x| ≤ ε) →
      |(l.map f).sum - (l.map g).sum| ≤ l.length * ε
  | [], _ => by simp
  | x :: rest, h => by
    have hx := h x (List.mem_cons_self _ _)
    have hrest := sum_abs_map_sub_le f g ε rest (fun y hy => h y (List.mem_cons_of_mem _ hy))
    simp only [List.map_cons, List.sum_cons, List.length_cons]
    have : f x + (rest.map f).sum - (g x + (rest.map g).sum)
        = (f x - g x) + ((rest.map f).sum - (rest.map g).sum) := by ring
    rw [this]
    calc |(f x - g x) + ((rest.map f).sum - (rest.map g).sum)|
        ≤ |f x - g x| + |(rest.map f).sum - (rest.map g).sum| := abs_add _ _
      _ ≤ ε + rest.length * ε := add_le_add hx hrest
      _ = (rest.length + 1) * ε := by ring
      _ = ((rest.length + 1 : ℕ) : ℚ) * ε := by push_cast; ring

theorem sum_map_mul_total {α : Type} (f : α → ℚ) (r : ℚ) :
    ∀ l : List α, (l.map (fun x => f x * r)).sum = (l.map f).sum * r
  | [] => by simp
  | x :: rest => by
    simp only [List.map_cons, List.sum_cons, sum_map_mul_total f r rest]
    ring

theorem sum_map_signed (b : Bool) :
    ∀ l : List ℚ, (∀ x ∈ l, 0 ≤ x) →
      (l.map (signedAmount b)).sum = (if b then (1 : ℚ) else -1) * l.sum
  | [], _ => by simp
  | x :: rest, h => by
    have hx := h x (List.mem_cons_self _ _)
    have hrest := sum_map_signed b rest (fun y hy => h y (List.mem_cons_of_mem _ hy))
    simp only [List.map_cons, List.sum_cons, hrest, signedAmount, abs_of_nonneg hx]
    cases b <;> simp <;> ring

theorem matchCategory_fail (cat : String) (cats : List String)
    (h : (matchCategory cat cats).2 = false) : (matchCategory cat cats).1 = cat := by
  unfold matchCategory at *
  by_cases hm : cat ∈ cats
  · rw [if_pos hm] at h; simp at h
  · rw [if_neg hm] at h ⊢
    cases h1 : findCaseInsensitive cat cats with
    | some y => rw [h1] at h; simp at h
    | none =>
    rw [h1] at h
    cases h2 : findEmojiStripped cat cats with
    | some y => rw [h2] at h; simp at h
    | none =>
    rw [h2] at h
    cases h3 : findFuzzy cat cats with
    | some y => rw [h3] at h; simp at h
    | none => rfl

theorem bestGo_nil {α β : Type} [LinearOrder β] (elig : α → Bool) (dv : α → β)
    (best : Option α) (bd : β) : bestGo elig dv [] best bd = best := rfl

theorem bestGo_cons_upd {α β : Type} [LinearOrder β] {elig : α → Bool} {dv : α → β}
    {x : α} {l : List α} {best : Option α} {bd : β} (h : elig x = true ∧ dv x < bd) :
    bestGo elig dv (x :: l) best bd = bestGo elig dv l (some x) (dv x) := by
  rw [bestGo, if_pos h]

theorem bestGo_cons_keep {α β : Type} [LinearOrder β] {elig : α → Bool} {dv : α → β}
    {x : α} {l : List α} {best : Option α} {bd : β} (h : ¬(elig x = true ∧ dv x < bd)) :
    bestGo elig dv (x :: l) best bd = bestGo elig dv l best bd := by
  rw [bestGo, if_neg h]

theorem eligibleB_bounds (d : ℤ) (s : Shipment) (h : eligibleB d s = true) :
    0 ≤ diffDays d s ∧ diffDays d s ≤ 7 := by
  unfold eligibleB at h
  cases hs : s.shipDate with
  | none => rw [hs] at h; exact Bool.noConfusion h
  | some sd =>
    rw [hs] at h
    simp at h
    unfold diffDays
    rw [hs]
    simpa using h

theorem partitionCached_mem (cache : String → Option String) :
    ∀ (items : List String) (it : String) (c : String),
      getCachedCategory cache it = some c →
      it ∉ (partitionCached cache items).2 ∧
      (it ∈ items → (it, c) ∈ (partitionCached cache items).1)
  | [], it, c, h => by simp [partitionCached]
  | x :: rest, it, c, h => by
    have ih := partitionCached_mem cache rest it c h
    simp only [partitionCached]
    cases hx : getCachedCategory cache x with
    | some cx =>
      refine ⟨ih.1, ?_⟩
      intro hmem
      rcases List.mem_cons.mp hmem with rfl | hmem'
      · have : cx = c := by rw [hx] at h; injection h
        subst this
        exact List.mem_cons_self _ _
      · exact List.mem_cons_of_mem _ (ih.2 hmem')
    | none =>
      constructor
      · intro hcontra
        rcases List.mem_cons.mp hcontra with rfl | hmem'
        · rw [hx] at h; exact Option.noConfusion h
        · exact ih.1 hmem'
      · intro hmem
        rcases List.mem_cons.mp hmem with rfl | hmem'
        · rw [hx] at h; exact Option.noConfusion h
        · exact ih.2 hmem'

/-! ## Claim theorems -/

/-- C10: whenever `match_category` reports `was_matched = True`, the returned
name is an element of the valid category list, and an input that is already
in the list is returned unchanged with `was_matched = True`. -/
theorem match_category_sound (cat : String) (cats : List String) :
    ((matchCategory cat cats).2 = true → (matchCategory cat cats).1 ∈ cats) ∧
    (cat ∈ cats → matchCategory cat cats = (cat, true)) := by
  constructor
  · intro h
    by_cases hm : cat ∈ cats
    · unfold matchCategory
      rw [if_pos hm]
      exact hm
    · unfold matchCategory at h ⊢
      rw [if_neg hm] at h ⊢
      cases h1 : findCaseInsensitive cat cats with
      | some y =>
        unfold findCaseInsensitive at h1
        exact List.mem_of_find?_eq_some h1
      | none =>
      rw [h1] at h
      cases h2 : findEmojiStripped cat cats with
      | some y =>
        unfold findEmojiStripped at h2
        exact List.mem_of_find?_eq_some h2
      | none =>
      rw [h2] at h
      cases h3 : findFuzzy cat cats with
      | some y =>
        unfold findFuzzy at h3
        exact List.mem_of_find?_eq_some h3
      | none =>
        rw [h3] at h
        exact absurd h (by simp)
  · intro hm
    unfold matchCategory
    rw [if_pos hm]

/-- Witness for C10 at a concrete category list. -/
theorem match_category_sound_witness :
    (("Snacks" : String) ∈ (["Snacks", "Dairy"] : List String)) ∧
    matchCategory ("Snacks") (["Snacks", "Dairy"]) = (("Snacks" : String), true) :=
  ⟨by decide, (match_category_sound ("Snacks") (["Snacks", "Dairy"])).2 (by decide)⟩

/-- C8: after `cache_category(name, category)` with a non-empty normalized
key and a non-empty category, `get_cached_category(name)` returns that
category, and the cache pre-pass of `batch_categorize_items` never sends the
name to the classifier (it lands in the cached results instead). -/
theorem category_cache_round_trip (cache : String → Option String)
    (name category : String)
    (hk : normalizeItemName name ≠ "") (hc : category ≠ "") :
    getCachedCategory (cacheCategory cache name category) name = some category ∧
    ∀ items : List String,
      name ∉ (partitionCached (cacheCategory cache name category) items).2 ∧
      (name ∈ items →
        (name, category) ∈ (partitionCached (cacheCategory cache name category) items).1) := by
  have hget : getCachedCategory (cacheCategory cache name category) name = some category := by
    unfold getCachedCategory cacheCategory
    rw [if_pos ⟨hk, hc⟩]
    simp
  exact ⟨hget, fun items => partitionCached_mem _ items name category hget⟩

/-- Witness for C8: the Widget X / Electronics round trip of the spec. -/
theorem category_cache_round_trip_witness :
    normalizeItemName ("Widget X") ≠ "" ∧
    getCachedCategory (cacheCategory (fun _ => none) ("Widget X") ("Electronics"))
      ("Widget X") = some ("Electronics") ∧
    ("Widget X" : String) ∉
      (partitionCached (cacheCategory (fun _ => none) ("Widget X") ("Electronics"))
        (["Widget X"])).2 ∧
    (("Widget X" : String), ("Electronics" : String)) ∈
      (partitionCached (cacheCategory (fun _ => none) ("Widget X") ("Electronics"))
        (["Widget X"])).1 := by
  have h := category_cache_round_trip (fun _ => none) ("Widget X") ("Electronics")
    (by decide) (by decide)
  exact ⟨by decide, h.1, (h.2 (["Widget X"])).1, (h.2 (["Widget X"])).2 (by decide)⟩

/-- C2: Strategy 1 returns a shipment with known ship date and day-diff in
[0, 7] minimizing the day-diff; on ties the first-encountered (earliest
inserted) shipment wins, it succeeds whenever an eligible shipment exists,
and the shipment list of an order is sorted ascending by ship date with
unknown dates last. Determinism holds because `strategy1` is a pure
function of its inputs. -/
theorem date_proximity_match_spec (d : ℤ) (l : List Shipment) :
    ((∃ s ∈ l, eligibleB d s = true) → ∃ s, strategy1 d l = some s) ∧
    (∀ s, strategy1 d l = some s →
      s ∈ l ∧ eligibleB d s = true ∧
      (∀ s' ∈ l, eligibleB d s' = true → diffDays d s ≤ diffDays d s') ∧
      ∃ l₁ l₂, l = l₁ ++ s :: l₂ ∧
        ∀ s' ∈ l₁, eligibleB d s' = true → diffDays d s < diffDays d s') ∧
    List.Pairwise (fun a b => shipKeyLE a b = true) (sortShipments l) := by
  have hspec := bestGo_spec (eligibleB d) (diffDays d) l none 999 (by simp)
  refine ⟨?_, ?_, ?_⟩
  · rintro ⟨s₀, hs₀mem, hs₀e⟩
    rcases hspec with ⟨_, hmin⟩ | ⟨t, hteq, _⟩
    · exfalso
      have h7 := (eligibleB_bounds d s₀ hs₀e).2
      have h999 := hmin s₀ hs₀mem hs₀e
      omega
    · exact ⟨t, hteq⟩
  · intro s hs
    unfold strategy1 at hs
    rcases hspec with ⟨heq, _⟩ | ⟨t, hteq, htmem, htelig, _, htmin, l₁, l₂, hdec, hstrict⟩
    · rw [hs] at heq; exact Option.noConfusion heq
    · rw [hs] at hteq
      obtain rfl : t = s := by injection hteq with hts; exact hts.symm
      exact ⟨htmem, htelig, htmin, l₁, l₂, hdec, hstrict⟩
  · have htrans : ∀ a b c : Shipment,
        shipKeyLE a b = true → shipKeyLE b c = true → shipKeyLE a c = true := by
      intro a b c
      unfold shipKeyLE
      rcases a.shipDate with _ | x <;> rcases b.shipDate with _ | y <;>
        rcases c.shipDate with _ | z <;> simp <;> omega
    have htot : ∀ a b : Shipment, (shipKeyLE a b || shipKeyLE b a) = true := by
      intro a b
      unfold shipKeyLE
      rcases a.shipDate with _ | x <;> rcases b.shipDate with _ | y <;> simp <;> omega
    exact List.sorted_mergeSort htrans htot l

/-- Witness for C2: two dated shipments, of which one is eligible. -/
theorem date_proximity_match_spec_witness :
    ∃ s, strategy1 10
      ([⟨some 7, 100, [], false⟩, ⟨some 9, 80, [], false⟩] : List Shipment) = some s :=
  (date_proximity_match_spec 10 _).1
    ⟨⟨some 7, 100, [], false⟩, List.mem_cons_self _ _, by decide⟩

/-- C3 (amended): Strategy 2 picks the first shipment within the $1
tolerance, Strategy 3 the first order item within the tolerance, and
Strategy 4 the first shipment attaining the globally smallest
`abs(total - abs(amount))` — but only below the implicit 999999 starting
bound, so Strategy 4 succeeds exactly when some shipment is within 999999 of
the charge; a lone shipment further away than that is not matched. -/
theorem fallback_cascade_spec (amt : ℚ) (l : List Shipment) (items : List OItem) :
    (∀ s, strategy2 amt l = some s → s ∈ l ∧ |s.total - amt| < 1 ∧
      ∃ l₁ l₂, l = l₁ ++ s :: l₂ ∧ ∀ s' ∈ l₁, ¬(|s'.total - amt| < 1)) ∧
    (∀ it, strategy3 amt items = some it → it ∈ items ∧ |it.total - amt| < 1 ∧
      ∃ l₁ l₂, items = l₁ ++ it :: l₂ ∧ ∀ x ∈ l₁, ¬(|x.total - amt| < 1)) ∧
    (∀ s, strategy4 amt l = some s → s ∈ l ∧ |s.total - amt| < 999999 ∧
      (∀ s' ∈ l, |s.total - amt| ≤ |s'.total - amt|) ∧
      ∃ l₁ l₂, l = l₁ ++ s :: l₂ ∧ ∀ s' ∈ l₁, |s.total - amt| < |s'.total - amt|) ∧
    ((∃ s ∈ l, |s.total - amt| < 999999) → ∃ s, strategy4 amt l = some s) := by
  have hspec := bestGo_spec (fun _ : Shipment => true) (fun s => |s.total - amt|) l
    none 999999 (by simp)
  refine ⟨?_, ?_, ?_, ?_⟩
  · intro s hs
    unfold strategy2 at hs
    obtain ⟨hmem, hp, l₁, l₂, hdec, hfirst⟩ := find?_first _ l s hs
    refine ⟨hmem, of_decide_eq_true hp, l₁, l₂, hdec, ?_⟩
    intro s' hs'
    have := hfirst s' hs'
    simpa using this
  · intro it hit
    unfold strategy3 at hit
    obtain ⟨hmem, hp, l₁, l₂, hdec, hfirst⟩ := find?_first _ items it hit
    refine ⟨hmem, of_decide_eq_true hp, l₁, l₂, hdec, ?_⟩
    intro x hx
    have := hfirst x hx
    simpa using this
  · intro s hs
    unfold strategy4 at hs
    rcases hspec with ⟨heq, _⟩ | ⟨t, hteq, htmem, _, htlt, htmin, l₁, l₂, hdec, hstrict⟩
    · rw [hs] at heq; exact Option.noConfusion heq
    · rw [hs] at hteq
      obtain rfl : t = s := by injection hteq with hts; exact hts.symm
      refine ⟨htmem, htlt, fun s' hs' => htmin s' hs' rfl, l₁, l₂, hdec,
        fun s' hs' => hstrict s' hs' rfl⟩
  · rintro ⟨s₀, hs₀mem, hs₀lt⟩
    rcases hspec with ⟨_, hmin⟩ | ⟨t, hteq, _⟩
    · exfalso
      have := hmin s₀ hs₀mem rfl
      linarith
    · exact ⟨t, hteq⟩

/-- Witness for the amended C3 theorem: best fit succeeds below the bound. -/
theorem fallback_cascade_spec_witness :
    ∃ s, strategy4 2 ([⟨none, 10, [], false⟩] : List Shipment) = some s :=
  (fallback_cascade_spec 2 _ []).2.2.2
    ⟨⟨none, 10, [], false⟩, List.mem_cons_self _ _, by
      show |(10 : ℚ) - 2| < 999999
      norm_num⟩

/-- Counterexample for C3 as stated: an order with one shipment whose total
is 999999.50 away from the charge amount is matched by no strategy, and the
charge is emitted as an unmatched NO SHIPMENT MATCH record even though the
shipment list is non-empty. -/
theorem best_fit_bound_fails :
    (([⟨none, 1000000, [⟨"Giant", 1000000, 1⟩], false⟩] : List Shipment) ≠ []) ∧
    strategy4 (|(-1/2 : ℚ)|)
      ([⟨none, (1000000 : ℚ), [⟨"Giant", 1000000, 1⟩], false⟩] : List Shipment) = none ∧
    processCharge (⟨none, -1/2, false, "AMAZON.COM", "111-0000000-0000001"⟩ : Charge)
      (some ⟨[⟨none, 1000000, [⟨"Giant", 1000000, 1⟩], false⟩],
             [⟨"Giant", 1000000⟩], false⟩)
      (fun _ => none)
    = noMatchTxn ⟨none, -1/2, false, "AMAZON.COM", "111-0000000-0000001"⟩ := by
  have habsHalf : |(-1/2 : ℚ)| = 1/2 := by
    rw [abs_of_nonpos (by norm_num)]
    norm_num
  have habsBig : |(1000000 : ℚ) - (1/2 : ℚ)| = 1999999/2 := by
    rw [abs_of_nonneg (by norm_num)]
    norm_num
  have h4 : strategy4 (|(-1/2 : ℚ)|)
      ([⟨none, (1000000 : ℚ), [⟨"Giant", 1000000, 1⟩], false⟩] : List Shipment) = none := by
    unfold strategy4
    rw [bestGo_cons_keep, bestGo_nil]
    rintro ⟨-, habs⟩
    rw [show Shipment.total ⟨none, (1000000 : ℚ), [⟨"Giant", 1000000, 1⟩], false⟩
      = (1000000 : ℚ) from rfl, habsHalf, habsBig] at habs
    norm_num at habs
  have h2 : strategy2 (|(-1/2 : ℚ)|)
      ([⟨none, (1000000 : ℚ), [⟨"Giant", 1000000, 1⟩], false⟩] : List Shipment) = none := by
    unfold strategy2
    rw [List.find?_cons_of_neg, List.find?_nil]
    simp only [decide_eq_true_eq]
    rw [habsHalf, habsBig]
    norm_num
  have h3 : strategy3 (|(-1/2 : ℚ)|) ([⟨"Giant", 1000000⟩] : List OItem) = none := by
    unfold strategy3
    rw [List.find?_cons_of_neg, List.find?_nil]
    simp only [decide_eq_true_eq]
    rw [habsHalf, habsBig]
    norm_num
  have hma : matchAndAllocate (⟨none, -1/2, false, "AMAZON.COM", "111-0000000-0000001"⟩ : Charge)
      ([⟨none, 1000000, [⟨"Giant", 1000000, 1⟩], false⟩] : List Shipment)
      ([⟨"Giant", 1000000⟩] : List OItem) = (none, none) := by
    unfold matchAndAllocate
    simp only [h2, h3, h4]
  refine ⟨by simp, h4, ?_⟩
  have htip : tipSignal ("AMAZON.COM") = false := by decide
  simp only [processCharge, htip, Bool.false_eq_true, if_false, hma]

/-- C4 (amended): allocation over a non-positive shipment total produces no
allocated items (and cannot crash, being a total function), and whenever
matching/allocation yields no items the charge is emitted as the flagged
blue NO SHIPMENT MATCH record with no splits — not with per-item raw
totals. -/
theorem zero_total_flags_no_match :
    (∀ (amt : ℚ) (s : Shipment), s.total ≤ 0 → allocate amt s = none) ∧
    (∀ (c : Charge) (od : OrderData) (κ : String → Option String),
      tipSignal c.payee = false →
      (matchAndAllocate c od.shipments od.items).2 = none →
      processCharge c (some od) κ = noMatchTxn c) := by
  constructor
  · intro amt s h
    unfold allocate
    rw [if_neg (by linarith)]
  · intro c od κ htip hma
    simp only [processCharge, htip, Bool.false_eq_true, if_false]
    rcases hpair : matchAndAllocate c od.shipments od.items with ⟨ms, alloc⟩
    rw [hpair] at hma
    simp only at hma
    subst hma
    rfl

/-- Witness for the amended C4 theorem. -/
theorem zero_total_flags_no_match_witness :
    allocate (-5 : ℚ) (⟨none, 0, [⟨"Zero", 0, 1⟩], false⟩ : Shipment) = none ∧
    processCharge (⟨none, -5, false, "AMAZON.COM*ABC", "111-0000000-0000002"⟩ : Charge)
      (some (⟨[], [], false⟩ : OrderData)) (fun _ => none)
      = noMatchTxn ⟨none, -5, false, "AMAZON.COM*ABC", "111-0000000-0000002"⟩ :=
  ⟨zero_total_flags_no_match.1 (-5) _ (le_refl 0),
   zero_total_flags_no_match.2 _ _ _ (by decide) rfl⟩

/-- Counterexample for C4 as stated: a charge matched (by best fit) to a
shipment with total 0 is not allocated raw item totals — allocation yields
nothing and the charge is flagged blue NO SHIPMENT MATCH instead. -/
theorem zero_total_not_raw_alloc :
    matchAndAllocate (⟨none, -5, false, "AMAZON.COM*ABC", "111-0000000-0000002"⟩ : Charge)
      ([⟨none, 0, [⟨"Zero", 0, 1⟩], false⟩] : List Shipment)
      ([⟨"Zero", 0⟩] : List OItem)
      = (some ⟨none, 0, [⟨"Zero", 0, 1⟩], false⟩, none) ∧
    processCharge (⟨none, -5, false, "AMAZON.COM*ABC", "111-0000000-0000002"⟩ : Charge)
      (some ⟨[⟨none, 0, [⟨"Zero", 0, 1⟩], false⟩], [⟨"Zero", 0⟩], false⟩)
      (fun _ => none)
      = noMatchTxn ⟨none, -5, false, "AMAZON.COM*ABC", "111-0000000-0000002"⟩ ∧
    (noMatchTxn (⟨none, -5, false, "AMAZON.COM*ABC", "111-0000000-0000002"⟩ : Charge)).flag
      = "blue" := by
  have habs5 : |(-5 : ℚ)| = 5 := by
    rw [abs_of_nonpos (by norm_num)]
    norm_num
  have habs05 : |(0 : ℚ) - 5| = 5 := by
    rw [abs_of_nonpos (by norm_num)]
    norm_num
  have h2 : strategy2 (|(-5 : ℚ)|) ([⟨none, 0, [⟨"Zero", 0, 1⟩], false⟩] : List Shipment)
      = none := by
    unfold strategy2
    rw [List.find?_cons_of_neg, List.find?_nil]
    simp only [decide_eq_true_eq]
    rw [habs5, habs05]
    norm_num
  have h3 : strategy3 (|(-5 : ℚ)|) ([⟨"Zero", 0⟩] : List OItem) = none := by
    unfold strategy3
    rw [List.find?_cons_of_neg, List.find?_nil]
    simp only [decide_eq_true_eq]
    rw [habs5, habs05]
    norm_num
  have h4 : strategy4 (|(-5 : ℚ)|) ([⟨none, 0, [⟨"Zero", 0, 1⟩], false⟩] : List Shipment)
      = some ⟨none, 0, [⟨"Zero", 0, 1⟩], false⟩ := by
    unfold strategy4
    rw [bestGo_cons_upd ⟨rfl, by
      rw [show Shipment.total ⟨none, (0 : ℚ), [⟨"Zero", 0, 1⟩], false⟩ = (0 : ℚ) from rfl,
        habs5, habs05]
      norm_num⟩]
    rw [bestGo_nil]
  have hall : allocate (-5 : ℚ) (⟨none, 0, [⟨"Zero", 0, 1⟩], false⟩ : Shipment) = none := by
    unfold allocate
    rw [if_neg]
    show ¬((0 : ℚ) < 0)
    norm_num
  have hma : matchAndAllocate (⟨none, -5, false, "AMAZON.COM*ABC", "111-0000000-0000002"⟩ : Charge)
      ([⟨none, 0, [⟨"Zero", 0, 1⟩], false⟩] : List Shipment)
      ([⟨"Zero", 0⟩] : List OItem)
      = (some ⟨none, 0, [⟨"Zero", 0, 1⟩], false⟩, none) := by
    unfold matchAndAllocate
    simp only [h2, h3, h4, hall]
  refine ⟨hma, ?_, rfl⟩
  have htip : tipSignal ("AMAZON.COM*ABC") = false := by decide
  simp only [processCharge, htip, Bool.false_eq_true, if_false, hma]

set_option maxHeartbeats 1000000 in
/-- C1 (amended): with a positive shipment total, every item — the last one
included — is allocated `round(item.total * ratio, 2)` independently (no
last-item residual absorption happens in `process_transactions.py`); the
per-item splits then sum to the signed sum of those rounded shares, which is
within `n` half-cents of the charge amount but need not equal it exactly. -/
theorem allocation_rounded_shares (c : Charge) (s : Shipment)
    (κ : String → Option String)
    (hpos : 0 < s.total) (hsum : (s.items.map SItem.total).sum = s.total)
    (hnn : ∀ it ∈ s.items, 0 ≤ it.total) :
    allocate c.amount s = some (s.items.map (allocItem (|c.amount| / s.total))) ∧
    (∀ it ∈ s.items, (allocItem (|c.amount| / s.total) it).amount
        = round2 (it.total * (|c.amount| / s.total))) ∧
    abs (((s.items.map (allocItem (|c.amount| / s.total))).map AllocItem.amount).sum
        - |c.amount|)
      ≤ s.items.length * (1/200) ∧
    ((buildItemSplits c.isRefund κ
        (s.items.map (allocItem (|c.amount| / s.total)))).map Split.amount).sum
      = (if c.isRefund then (1 : ℚ) else -1) *
        ((s.items.map (allocItem (|c.amount| / s.total))).map AllocItem.amount).sum := by
  have hr : (0 : ℚ) ≤ |c.amount| / s.total := div_nonneg (abs_nonneg _) (le_of_lt hpos)
  have hamts : ((s.items.map (allocItem (|c.amount| / s.total))).map AllocItem.amount)
      = s.items.map (fun it => round2 (it.total * (|c.amount| / s.total))) := by
    rw [List.map_map]
    rfl
  refine ⟨?_, ?_, ?_, ?_⟩
  · unfold allocate
    rw [if_pos hpos]
  · intro it _
    rfl
  · rw [hamts]
    have hb := sum_abs_map_sub_le (fun it => round2 (it.total * (|c.amount| / s.total)))
      (fun it => it.total * (|c.amount| / s.total)) (1/200) s.items
      (fun it _ => round2_sub_le (it.total * (|c.amount| / s.total)))
    have hg : (s.items.map (fun it => it.total * (|c.amount| / s.total))).sum = |c.amount| := by
      rw [sum_map_mul_total SItem.total (|c.amount| / s.total) s.items, hsum]
      rw [mul_comm, div_mul_cancel₀ _ (ne_of_gt hpos)]
    rw [hg] at hb
    exact hb
  · have hsplit : ((buildItemSplits c.isRefund κ
        (s.items.map (allocItem (|c.amount| / s.total)))).map Split.amount)
      = ((s.items.map (allocItem (|c.amount| / s.total))).map AllocItem.amount).map
          (signedAmount c.isRefund) := by
      unfold buildItemSplits
      simp only [List.map_map]
      rfl
    rw [hsplit]
    apply sum_map_signed
    intro x hx
    rw [hamts] at hx
    obtain ⟨it, hit, rfl⟩ := List.mem_map.mp hx
    exact round2_nonneg _ (mul_nonneg (hnn it hit) hr)

/-- Witness for the amended C1 theorem: the $200 shipment ($120 + $80 items)
against a $140 charge of the spec scenario. -/
theorem allocation_rounded_shares_witness :
    allocate ((-140 : ℚ))
        (⟨none, 200, [⟨"Item A", 120, 1⟩, ⟨"Item B", 80, 1⟩], false⟩ : Shipment)
      = some (([⟨"Item A", 120, 1⟩, ⟨"Item B", 80, 1⟩] : List SItem).map
          (allocItem (|(-140 : ℚ)| / 200))) ∧
    abs (((([⟨"Item A", 120, 1⟩, ⟨"Item B", 80, 1⟩] : List SItem).map
          (allocItem (|(-140 : ℚ)| / 200))).map AllocItem.amount).sum - |(-140 : ℚ)|)
      ≤ ([⟨"Item A", 120, 1⟩, ⟨"Item B", 80, 1⟩] : List SItem).length * (1/200) := by
  have h := allocation_rounded_shares
    (⟨none, -140, false, "Amazon.com", "111-0000000-0000005"⟩ : Charge)
    (⟨none, 200, [⟨"Item A", 120, 1⟩, ⟨"Item B", 80, 1⟩], false⟩ : Shipment)
    (fun _ => none)
    (by show (0 : ℚ) < 200; norm_num)
    (by show (120 : ℚ) + (80 + 0) = 200; norm_num)
    (by
      intro it hit
      rcases List.mem_cons.mp hit with rfl | hit
      · show (0 : ℚ) ≤ 120
        norm_num
      rcases List.mem_cons.mp hit with rfl | hit
      · show (0 : ℚ) ≤ 80
        norm_num
      · simp at hit)
  exact ⟨h.1, h.2.2.1⟩

/-- Counterexample for C1 as stated: a shipment of two $1.00 items matched
against a $0.25 charge rounds both items to $0.12 (the last item is rounded
like every other item, instead of absorbing the residual), so the splits sum
to -$0.24, not the charge amount -$0.25. -/
theorem allocation_exact_sum_fails :
    allocate ((-1)/4 : ℚ) (⟨none, 2, [⟨"A", 1, 1⟩, ⟨"B", 1, 1⟩], false⟩ : Shipment)
      = some [allocItem ((|((-1)/4 : ℚ)|) / 2) ⟨"A", 1, 1⟩,
              allocItem ((|((-1)/4 : ℚ)|) / 2) ⟨"B", 1, 1⟩] ∧
    ((buildItemSplits false (fun _ => none)
        [allocItem ((|((-1)/4 : ℚ)|) / 2) ⟨"A", 1, 1⟩,
         allocItem ((|((-1)/4 : ℚ)|) / 2) ⟨"B", 1, 1⟩]).map Split.amount).sum
      ≠ ((-1)/4 : ℚ) := by
  have habs : |((-1)/4 : ℚ)| = 1/4 := by
    rw [abs_of_nonpos (by norm_num)]
    norm_num
  have hr : (|((-1)/4 : ℚ)|) / 2 = 1/8 := by
    rw [habs]
    norm_num
  have hround : round2 ((1 : ℚ) * (1/8)) = 3/25 := by
    have h8 : (1 : ℚ) * (1/8) = 1/8 := by norm_num
    rw [h8]
    unfold round2 roundHalfEven
    have hq : (100 : ℚ) * (1/8) = 25/2 := by norm_num
    rw [hq]
    have hfl : ⌊(25/2 : ℚ)⌋ = 12 := by
      rw [Int.floor_eq_iff] <;> norm_num
    rw [hfl]
    rw [if_neg (by push_cast; norm_num), if_neg (by push_cast; norm_num),
      if_pos (by norm_num)]
    norm_num
  constructor
  · unfold allocate
    rw [if_pos (by show (0 : ℚ) < 2; norm_num)]
    rfl
  · rw [hr]
    show signedAmount false (round2 ((1 : ℚ) * (1/8)))
        + (signedAmount false (round2 ((1 : ℚ) * (1/8))) + 0) ≠ ((-1)/4 : ℚ)
    rw [hround]
    unfold signedAmount
    rw [if_neg (by simp)]
    rw [abs_of_nonneg (by norm_num : (0 : ℚ) ≤ 3/25)]
    norm_num

/-- C5: a shipment built by `load_order_history` is grocery iff every item
in its group has a grocery-flagged shipping option; a grocery order has all
shipments grocery; and a charge resolved as grocery (with matched allocated
items and no tip signal) is emitted with exactly one split of category
"Groceries" whose amount is the signed charge amount, with item names kept
only as split metadata, regardless of the category lookup. -/
theorem grocery_single_split_spec :
    (∀ group : List RawItem,
      ((mkShipment group).isGrocery = true ↔
        ∀ it ∈ group, it.shippingOption ∈ GROCERY_SHIPPING_OPTIONS)) ∧
    (∀ shipments : List Shipment, orderIsGrocery shipments = true →
      ∀ s ∈ shipments, s.isGrocery = true) ∧
    (∀ (c : Charge) (od : OrderData) (κ : String → Option String)
        (ms : Option Shipment) (items : List AllocItem),
      tipSignal c.payee = false →
      matchAndAllocate c od.shipments od.items = (ms, some items) →
      items ≠ [] →
      (matchedShipGrocery ms || od.isGrocery || isGroceryTransaction c.payee) = true →
      (c.isRefund = true → 0 ≤ c.amount) →
      (c.isRefund = false → c.amount ≤ 0) →
      processCharge c (some od) κ =
        { tag := Tag.grocery, flag := "yellow", memo := ("Order ") ++ c.orderId
          splits := [{ category := "Groceries", amount := c.amount, memo := "Groceries",
                       items := items.map AllocItem.name }] }) := by
  refine ⟨?_, ?_, ?_⟩
  · intro group
    unfold mkShipment
    simp [List.all_eq_true]
  · intro shipments h s hs
    cases shipments with
    | nil => simp at hs
    | cons x rest =>
      unfold orderIsGrocery at h
      exact List.all_eq_true.mp h s hs
  · intro c od κ ms items htip hma hne hgro h1 h2
    have hamt : signedAmount c.isRefund c.amount = c.amount := by
      unfold signedAmount
      cases hb : c.isRefund with
      | true =>
        rw [if_pos rfl]
        exact abs_of_nonneg (h1 hb)
      | false =>
        rw [if_neg (by simp)]
        rw [abs_of_nonpos (h2 hb)]
        ring
    cases items with
    | nil => exact absurd rfl hne
    | cons a rest =>
      simp only [processCharge, htip, Bool.false_eq_true, if_false, hma]
      rw [hgro]
      rw [if_pos rfl]
      rw [hamt]

/-- Witness for C5: a one-item grocery shipment matched by amount. -/
theorem grocery_single_split_spec_witness :
    processCharge (⟨none, -50, false, "AMZN Mktp US", "112-0000000-0000006"⟩ : Charge)
      (some ⟨[⟨none, 50, [⟨"Milk", 50, 1⟩], true⟩], [⟨"Milk", 50⟩], true⟩)
      (fun _ => none)
    = { tag := Tag.grocery, flag := "yellow", memo := "Order 112-0000000-0000006"
        splits := [{ category := "Groceries", amount := (-50 : ℚ), memo := "Groceries",
                     items := (([allocItem ((|(-50 : ℚ)|) / 50) ⟨"Milk", 50, 1⟩] :
                        List AllocItem).map AllocItem.name) }] } := by
  have habs50 : |(-50 : ℚ)| = 50 := by
    rw [abs_of_nonpos (by norm_num)]
    norm_num
  have h2 : strategy2 (|(-50 : ℚ)|) ([⟨none, 50, [⟨"Milk", 50, 1⟩], true⟩] : List Shipment)
      = some ⟨none, 50, [⟨"Milk", 50, 1⟩], true⟩ := by
    unfold strategy2
    rw [List.find?_cons_of_pos]
    simp only [decide_eq_true_eq]
    rw [habs50]
    show |(50 : ℚ) - 50| < 1
    rw [show (50 : ℚ) - 50 = 0 by norm_num]
    rw [abs_zero]
    norm_num
  have halloc : allocate (-50 : ℚ) (⟨none, 50, [⟨"Milk", 50, 1⟩], true⟩ : Shipment)
      = some [allocItem ((|(-50 : ℚ)|) / 50) ⟨"Milk", 50, 1⟩] := by
    unfold allocate
    rw [if_pos (show (0 : ℚ) < 50 by norm_num)]
    rfl
  have hma : matchAndAllocate (⟨none, -50, false, "AMZN Mktp US", "112-0000000-0000006"⟩ : Charge)
      ([⟨none, 50, [⟨"Milk", 50, 1⟩], true⟩] : List Shipment) ([⟨"Milk", 50⟩] : List OItem)
      = (some ⟨none, 50, [⟨"Milk", 50, 1⟩], true⟩,
         some [allocItem ((|(-50 : ℚ)|) / 50) ⟨"Milk", 50, 1⟩]) := by
    unfold matchAndAllocate
    simp only [h2, halloc]
  exact grocery_single_split_spec.2.2
    (⟨none, -50, false, "AMZN Mktp US", "112-0000000-0000006"⟩ : Charge)
    (⟨[⟨none, 50, [⟨"Milk", 50, 1⟩], true⟩], [⟨"Milk", 50⟩], true⟩ : OrderData)
    (fun _ => none) _ _ (by decide) hma (by simp) (by decide) (by intro h; cases h)
    (fun _ => by norm_num)

/-- C6 (amended): a charge with the bank-level tip signal whose order id is
found in the order history always yields the single fixed "Delivery Fee"
split with no itemization, taking precedence over shipment matching,
grocery handling and the no-shipment-match flagging — but the tip check
runs only after the order lookup, and an order-not-found charge is flagged
NEEDS ITEMIZATION regardless of the tip signal. -/
theorem tip_precedence_spec (c : Charge) (od : OrderData) (κ : String → Option String)
    (htip : tipSignal c.payee = true) :
    processCharge c (some od) κ =
      { tag := Tag.tip, flag := "yellow", memo := "Delivery Tip"
        splits := [{ category := "Delivery Fee", amount := signedAmount c.isRefund c.amount
                     memo := "Delivery Tip", items := [] }] } ∧
    processCharge c none κ = notFoundTxn c := by
  constructor
  · simp only [processCharge, htip, if_true]
  · rfl

/-- Witness for the amended C6 theorem. -/
theorem tip_precedence_spec_witness :
    processCharge (⟨none, -3, false, "AMZN Amazon Tips", "111-0000000-0000004"⟩ : Charge)
      (some (⟨[], [], false⟩ : OrderData)) (fun _ => none)
    = { tag := Tag.tip, flag := "yellow", memo := "Delivery Tip"
        splits := [{ category := "Delivery Fee"
                     amount := signedAmount false (((-3 : ℚ)))
                     memo := "Delivery Tip", items := [] }] } :=
  (tip_precedence_spec (⟨none, -3, false, "AMZN Amazon Tips", "111-0000000-0000004"⟩ : Charge)
    (⟨[], [], false⟩ : OrderData) (fun _ => none) (by decide)).1

/-- Counterexample for C6 as stated: a charge carrying the tip signal whose
order id is absent from the order history is flagged blue NEEDS ITEMIZATION
with no splits — the tip special case does not apply to it, because the
order lookup runs before the tip check. -/
theorem tip_requires_order_found :
    tipSignal ("AMZN Amazon Tips") = true ∧
    processCharge (⟨none, -3, false, "AMZN Amazon Tips", "999-0000000-0000000"⟩ : Charge)
      none (fun _ => none)
      = notFoundTxn ⟨none, -3, false, "AMZN Amazon Tips", "999-0000000-0000000"⟩ ∧
    (notFoundTxn (⟨none, -3, false, "AMZN Amazon Tips", "999-0000000-0000000"⟩ : Charge)).splits
      = [] ∧
    (notFoundTxn (⟨none, -3, false, "AMZN Amazon Tips", "999-0000000-0000000"⟩ : Charge)).flag
      = "blue" :=
  ⟨by decide, rfl, rfl, rfl⟩

/-- C7: the import id is a pure function of (order id, absolute amount in
cents, purchase/refund direction); pass 1 appends nothing for a charge with
an already-cached import id; and a sync run over transactions whose import
ids all exist remotely with unchanged subtransactions queues zero creations —
every such transaction is reported duplicate or skipped. -/
theorem import_id_dedup_spec :
    (∀ c c' : Charge, c.orderId = c'.orderId →
      amountCents c.amount = amountCents c'.amount →
      c.isRefund = c'.isRefund → chargeImportId c = chargeImportId c') ∧
    (∀ (ids : List String) (c : Charge) (ol : Option OrderData)
        (κ : String → Option String),
      chargeImportId c ∈ ids → processRow ids c ol κ = none) ∧
    (∀ (txns : List SyncTxn) (synced : List String)
        (existing : String → Option RemoteTxn)
        (cm : String → Option String) (cutoff : String),
      (∀ t ∈ txns, t.importId ≠ "" ∧
        ∃ ex, existing t.importId = some ex ∧
          ∀ subs, buildSubtransactions cm t = some subs → ex.subtransactions = subs) →
      (txns.map (classifyTxn synced existing cm cutoff)).count SyncOutcome.queuedCreate = 0 ∧
      ∀ t ∈ txns, classifyTxn synced existing cm cutoff t = SyncOutcome.duplicate ∨
        classifyTxn synced existing cm cutoff t = SyncOutcome.skipped) := by
  refine ⟨?_, ?_, ?_⟩
  · intro c c' h1 h2 h3
    unfold chargeImportId mkImportId
    rw [h1, h2, h3]
  · intro ids c ol κ h
    unfold processRow
    rw [if_pos h]
  · intro txns synced existing cm cutoff hall
    have hone : ∀ t ∈ txns, classifyTxn synced existing cm cutoff t = SyncOutcome.duplicate ∨
        classifyTxn synced existing cm cutoff t = SyncOutcome.skipped := by
      intro t ht
      obtain ⟨hid, ex, hex, hsubs⟩ := hall t ht
      unfold classifyTxn
      rw [if_neg hid]
      by_cases hdate : pyStrLt t.date cutoff = true
      · rw [if_pos hdate]
        right
        rfl
      · rw [if_neg hdate]
        rw [if_neg (by
          rintro ⟨-, hnone⟩
          rw [hex] at hnone
          exact Option.noConfusion hnone)]
        rw [hex]
        have hdiff : (match buildSubtransactions cm t with
            | none => false
            | some [] => false
            | some subs => subtransactionsDiffer subs ex.subtransactions) = false := by
          cases hb : buildSubtransactions cm t with
          | none => rfl
          | some subs =>
            cases subs with
            | nil => rfl
            | cons a rest =>
              rw [hsubs (a :: rest) hb]
              exact subtransactionsDiffer_self _
        dsimp only
        rw [hdiff]
        rw [if_neg (by simp)]
        by_cases hsy : t.importId ∈ synced
        · rw [if_pos hsy]
          right
          rfl
        · rw [if_neg hsy]
          left
          rfl
    refine ⟨?_, hone⟩
    rw [List.count_eq_zero]
    intro hmem
    obtain ⟨t, ht, heq⟩ := List.mem_map.mp hmem
    rcases hone t ht with h | h <;> rw [heq] at h <;> exact SyncOutcome.noConfusion h

/-- Witness for C7 at one concrete already-synced transaction. -/
theorem import_id_dedup_spec_witness :
    chargeImportId (⟨none, -5, false, "AMZN A", "111-0000000-0000007"⟩ : Charge)
      = chargeImportId (⟨some 3, -5, false, "AMZN B", "111-0000000-0000007"⟩ : Charge) ∧
    processRow [chargeImportId (⟨none, -5, false, "AMZN A", "111-0000000-0000007"⟩ : Charge)]
      (⟨none, -5, false, "AMZN A", "111-0000000-0000007"⟩ : Charge) none (fun _ => none)
      = none ∧
    (([⟨"AMZ2:1:500:P", "2026-01-01", -5, []⟩] : List SyncTxn).map
        (classifyTxn [] (fun k => if k = ("AMZ2:1:500:P") then some ⟨"tid", []⟩ else none)
          (fun _ => none) ("2021-10-12"))).count SyncOutcome.queuedCreate = 0 ∧
    (∀ t ∈ ([⟨"AMZ2:1:500:P", "2026-01-01", -5, []⟩] : List SyncTxn),
      classifyTxn [] (fun k => if k = ("AMZ2:1:500:P") then some ⟨"tid", []⟩ else none)
          (fun _ => none) ("2021-10-12") t = SyncOutcome.duplicate ∨
      classifyTxn [] (fun k => if k = ("AMZ2:1:500:P") then some ⟨"tid", []⟩ else none)
          (fun _ => none) ("2021-10-12") t = SyncOutcome.skipped) := by
  have hpart3 := import_id_dedup_spec.2.2
    ([⟨"AMZ2:1:500:P", "2026-01-01", -5, []⟩] : List SyncTxn) []
    (fun k => if k = ("AMZ2:1:500:P") then some ⟨"tid", []⟩ else none)
    (fun _ => none) ("2021-10-12")
    (by
      intro t ht
      rcases List.mem_cons.mp ht with rfl | ht
      · refine ⟨by decide, ⟨"tid", []⟩, by decide, ?_⟩
        intro subs h
        exact Option.noConfusion h
      · simp at ht)
  exact ⟨import_id_dedup_spec.1 _ _ rfl rfl rfl,
    import_id_dedup_spec.2.1 _ _ none (fun _ => none) (List.mem_cons_self _ _),
    hpart3.1, hpart3.2⟩

/-- C9 (amended): for an item whose cleaned classifier response fails the
product-name/fuzzy-match test and whose single-item retry also fails, the
batch-results path assigns the configured fallback category ("🍌Groceries"
when present, else "Groceries"), while the synchronous path keeps the
cleaned raw response text itself as the category (merely logging it as
unmatched); neither path raises. -/
theorem fallback_paths_spec (cats : List String) (rawCat itemName : String)
    (resubmit : String → String)
    (hfail : (if looksLikeProduct (cleanCat rawCat) then ((cleanCat rawCat), false)
        else matchCategory (cleanCat rawCat) cats).2 = false)
    (hsus : isSuspicious itemName (cleanCat rawCat) = false) :
    categorizeLineBatch cats rawCat none = fallbackCat cats ∧
    categorizeLineSync cats rawCat itemName none resubmit = cleanCat rawCat ∧
    (fallbackCat cats = ("🍌Groceries") ∨ fallbackCat cats = ("Groceries")) := by
  have hfst : (if looksLikeProduct (cleanCat rawCat) then ((cleanCat rawCat), false)
      else matchCategory (cleanCat rawCat) cats).1 = cleanCat rawCat := by
    by_cases hl : looksLikeProduct (cleanCat rawCat) = true
    · rw [if_pos hl]
    · rw [if_neg hl] at hfail ⊢
      exact matchCategory_fail _ _ hfail
  refine ⟨?_, ?_, ?_⟩
  · unfold categorizeLineBatch
    dsimp only
    rw [hfail]
    rw [if_neg (by simp)]
  · unfold categorizeLineSync
    dsimp only
    rw [hfail, hfst]
    simp only [Bool.false_eq_true, if_false]
    rw [hsus]
    simp only [Bool.false_eq_true, if_false]
  · unfold fallbackCat
    by_cases hb : ("🍌Groceries" : String) ∈ cats
    · left
      rw [if_pos hb]
    · right
      rw [if_neg hb]

/-- Witness for the amended C9 theorem. -/
theorem fallback_paths_spec_witness :
    categorizeLineBatch (["Snacks"]) ("Weird Product, 2 Pack") none
      = fallbackCat (["Snacks"]) ∧
    categorizeLineSync (["Snacks"]) ("Weird Product, 2 Pack") ("some item") none
      (fun x => x) = cleanCat ("Weird Product, 2 Pack") := by
  have h := fallback_paths_spec (["Snacks"]) ("Weird Product, 2 Pack") ("some item")
    (fun x => x) (by decide) (by decide)
  exact ⟨h.1, h.2.1⟩

/-- Counterexample for C9 as stated: in the synchronous path of
`batch_categorize_items`, a doubly-failed item keeps the raw unmatched
response text as its category — it is not assigned the configured fallback
category and the stored text is not a valid category. -/
theorem sync_path_keeps_raw_text :
    categorizeLineSync (["Snacks", "Dairy"]) ("Organic Bananas, 3 lb Bag")
      ("Organic Bananas, 3 lb Bag") none (fun x => x)
      = ("Organic Bananas, 3 lb Bag") ∧
    (("Organic Bananas, 3 lb Bag" : String) ∉ (["Snacks", "Dairy"] : List String)) ∧
    ("Organic Bananas, 3 lb Bag" : String) ≠ fallbackCat (["Snacks", "Dairy"]) :=
  ⟨by decide, by decide, by decide⟩

end YnabToolkit
